import Mathlib

/-!
Verification of the layouts-service window-arrangement core.

The repository ships the client API (`src/client/tabstrip.ts`), a dev
server, a demo UI and integration tests.  The provider-side core (Group
Registry, State Synchronizer, Tabstrip Controller, Workspace Serializer)
is specified in `spec.md`; where the provider implementation is absent
from the sources, the corresponding definitions below are modelled from
the spec, as indicated in their doc comments, and checked against the
behaviour the integration tests in the sources assert.  Definitions taken
from `src/client/tabstrip.ts` are marked as such.
-/

namespace LayoutsService

/-- A window identity: a `{uuid, name}` pair supplied by the window host
(`WindowIdentity` in the data model, `Identity` in `tabstrip.ts`). -/
structure WindowIdentity where
  uuid : String
  name : String
deriving DecidableEq, Repr

/-- Visual window state as reported by the Window Host. -/
inductive WindowState where
  | normal
  | minimized
  | maximized
  | hidden
deriving DecidableEq, Repr

/-! ## Tabstrip Controller: drag protocol

Modelled from the spec (§4.3): the provider-side drag handler behind
`startDrag` / `endDrag` of `src/client/tabstrip.ts` is not in the
sources; the spec describes it as an explicit two-state machine. -/

/-- The drag protocol state: `idle`, or `dragging` with the identity that
originated the drag. -/
inductive DragState where
  | idle
  | dragging (origin : WindowIdentity)
deriving DecidableEq, Repr

/-- Errors raised by the Tabstrip Controller drag protocol. -/
inductive DragError where
  | dragInProgressError
deriving DecidableEq, Repr

/-- Modelled from the spec: `startDrag(identity)` transitions
`idle → dragging`; a second `startDrag` while `dragging` fails with
`DragInProgressError`.  Returns the outcome together with the (possibly
unchanged) machine state. -/
def startDrag (d : DragState) (identity : WindowIdentity) :
    Except DragError Unit × DragState :=
  match d with
  | .idle => (.ok (), .dragging identity)
  | .dragging o => (.error .dragInProgressError, .dragging o)

/-- Modelled from the spec: `endDrag()` transitions `dragging → idle`. -/
def endDrag (_ : DragState) : DragState := .idle

/-- Modelled from the spec: host-reported close hook of the Tabstrip
Controller.  If the window that originated the active drag closes while
`dragging`, the controller forces a transition back to `idle`. -/
def onWindowClosed (d : DragState) (w : WindowIdentity) : DragState :=
  match d with
  | .idle => .idle
  | .dragging o => if o = w then .idle else .dragging o

/-! ## Client event listeners (`src/client/tabstrip.ts`)

`addEventListener` / `removeEventListener` first check
`typeof fin === 'undefined'` and throw an `Error` if so; otherwise they
delegate to the shared `eventEmitter`.  The emitter is modelled as a list
of `(eventType, listener)` registrations; listeners are abstract tokens.
Node's `removeListener` removes the most recently added matching
listener. -/

/-- A registered listener entry on the shared event emitter:
the event type it subscribes to and an opaque listener token. -/
structure ListenerEntry where
  eventType : String
  listener : Nat
deriving DecidableEq, Repr

/-- Remove the most recently added entry matching `(eventType, listener)`
(Node `EventEmitter.removeListener` semantics); no-op when absent. -/
def removeLastListener (em : List ListenerEntry) (eventType : String)
    (listener : Nat) : List ListenerEntry :=
  match em with
  | [] => []
  | e :: rest =>
      let rest' := removeLastListener rest eventType listener
      if (⟨eventType, listener⟩ : ListenerEntry) ∈ rest ∧ rest' ≠ rest then
        e :: rest'
      else if e = ⟨eventType, listener⟩ then rest
      else e :: rest'

/-- From `src/client/tabstrip.ts` (`addEventListener`): if the global
`fin` is undefined, throw an `Error` synchronously; otherwise register
the listener on the shared event emitter and return normally. -/
def addEventListener (finDefined : Bool) (eventType : String)
    (listener : Nat) (em : List ListenerEntry) :
    Except String Unit × List ListenerEntry :=
  if finDefined then
    (.ok (), em ++ [⟨eventType, listener⟩])
  else
    (.error "fin is not defined. The openfin-layouts module is only intended for use in an OpenFin application.", em)

/-- From `src/client/tabstrip.ts` (`removeEventListener`): if the global
`fin` is undefined, throw an `Error` synchronously; otherwise remove the
listener from the shared event emitter and return normally. -/
def removeEventListener (finDefined : Bool) (eventType : String)
    (listener : Nat) (em : List ListenerEntry) :
    Except String Unit × List ListenerEntry :=
  if finDefined then
    (.ok (), removeLastListener em eventType listener)
  else
    (.error "fin is not defined. The openfin-layouts module is only intended for use in an OpenFin application.", em)

/-! ## Group Registry and State Synchronizer

Modelled from the spec (§4.1, §4.2): the provider-side Group Registry and
State Synchronizer are not in the sources; the spec describes the
membership store (SnapGroup partition, TabGroup list) and the broadcast
rule that keeps window states synchronized across a group.  The model
matches the behaviour asserted by the integration tests in the sources
(minimize/restore of grouped windows and of snapped tabstrips). -/

/-- A TabGroup: the proxy tabstrip identity, the ordered tab members and
the designated active tab. -/
structure TabGroup where
  tabstrip : WindowIdentity
  order : List WindowIdentity
  activeTab : WindowIdentity
deriving DecidableEq, Repr

/-- The authoritative service state: the SnapGroup partition, the TabGroup
list, and the per-window visual state mirror (an association list in
registration order). -/
structure RegistryState where
  snapGroups : List (List WindowIdentity)
  tabGroups : List TabGroup
  windowStates : List (WindowIdentity × WindowState)
deriving DecidableEq, Repr

/-- Errors of the Group Registry (spec §7 taxonomy, registry subset). -/
inductive RegistryError where
  | notFoundError
  | alreadyTabbedError
  | invalidOrderError
deriving DecidableEq, Repr

/-- Service-level events broadcast over the Dispatch Channel (§6). -/
inductive ServiceEvent where
  | tabGroupRestored (identity : WindowIdentity)
  | tabGroupMinimized (identity : WindowIdentity)
  | tabGroupMaximized (identity : WindowIdentity)
  | stateChanged (identity : WindowIdentity) (state : WindowState)
deriving DecidableEq, Repr

/-- Modelled from the spec: the `reorder` validation — `newOrder` must be
a permutation of the current members exactly: same cardinality, same set,
no duplicates. -/
def isExactPermutation (newOrder current : List WindowIdentity) : Bool :=
  newOrder.length == current.length &&
  current.all (fun w => newOrder.contains w) &&
  decide newOrder.Nodup

/-- Look up the TabGroup whose tabstrip identity is `tabGroupId`. -/
def findTabGroup (s : RegistryState) (tabGroupId : WindowIdentity) :
    Option TabGroup :=
  s.tabGroups.find? (fun tg => tg.tabstrip == tabGroupId)

/-- Modelled from the spec: Group Registry `reorder(tabGroupId, newOrder)`
(the provider-side handler behind `reorderTabs` of
`src/client/tabstrip.ts`).  Validation happens atomically before any
mutation; a mismatch fails with `InvalidOrderError` and leaves the state
untouched; the call is purely informational and emits no events. -/
def reorder (s : RegistryState) (tabGroupId : WindowIdentity)
    (newOrder : List WindowIdentity) :
    Except RegistryError Unit × RegistryState × List ServiceEvent :=
  match findTabGroup s tabGroupId with
  | none => (.error .notFoundError, s, [])
  | some tg =>
      if isExactPermutation newOrder tg.order then
        (.ok (),
         { s with
           tabGroups := s.tabGroups.map (fun g =>
             if g.tabstrip == tabGroupId then { g with order := newOrder }
             else g) },
         [])
      else (.error .invalidOrderError, s, [])

/-- Current visual state of `w` as mirrored by the Synchronizer
(`normal` when the window has no recorded state). -/
def stateOf (s : RegistryState) (w : WindowIdentity) : WindowState :=
  match s.windowStates.find? (fun p => p.1 == w) with
  | some p => p.2
  | none => .normal

/-- The TabGroup containing `w` as an ordered tab member, if any. -/
def tabGroupOfTab (s : RegistryState) (w : WindowIdentity) :
    Option TabGroup :=
  s.tabGroups.find? (fun tg => tg.order.contains w)

/-- The entity that occupies a SnapGroup slot on behalf of `w`: while `w`
is tabbed its own identity is withdrawn from SnapGroup membership and its
tabstrip stands in for it; otherwise `w` itself. -/
def effectiveEntity (s : RegistryState) (w : WindowIdentity) :
    WindowIdentity :=
  match tabGroupOfTab s w with
  | some tg => tg.tabstrip
  | none => w

/-- The SnapGroup containing `e`; a lone window is its own singleton
group. -/
def snapGroupOf (s : RegistryState) (e : WindowIdentity) :
    List WindowIdentity :=
  (s.snapGroups.find? (fun g => g.contains e)).getD [e]

/-- The members a state broadcast over the SnapGroup `sg` reaches: every
SnapGroup member, plus — for every member that is the tabstrip of a
TabGroup — every tab inside that TabGroup. -/
def stripScope (s : RegistryState) (sg : List WindowIdentity) :
    List WindowIdentity :=
  sg ++ (s.tabGroups.filter (fun tg => sg.contains tg.tabstrip)).flatMap
    TabGroup.order

/-- Modelled from the spec (§4.2): the full set of windows the
Synchronizer drives to the same target state when `w` transitions — `w`'s
SnapGroup (through its tabstrip when `w` is tabbed) and the tabs of every
tabstrip in that SnapGroup. -/
def syncScope (s : RegistryState) (w : WindowIdentity) :
    List WindowIdentity :=
  stripScope s (snapGroupOf s (effectiveEntity s w))

/-- Set the recorded state of every window in `ws` to `st`. -/
def setStates (s : RegistryState) (ws : List WindowIdentity)
    (st : WindowState) : RegistryState :=
  { s with
    windowStates := s.windowStates.map (fun p =>
      if ws.contains p.1 then (p.1, st) else p) }

/-- Modelled from the spec: `minimize(w)` sets target `minimized` for
`w`'s whole synchronization scope. -/
def minimize (s : RegistryState) (w : WindowIdentity) : RegistryState :=
  setStates s (syncScope s w) .minimized

/-- Modelled from the spec: `restore(w)` sets target `normal` for the
same scope, regardless of which member initiated it. -/
def restore (s : RegistryState) (w : WindowIdentity) : RegistryState :=
  setStates s (syncScope s w) .normal

/-- Modelled from the spec: `minimizeTabGroup(tabstripId)` is equivalent
to minimizing the tabstrip. -/
def minimizeTabGroup (s : RegistryState) (tabstripId : WindowIdentity) :
    RegistryState :=
  minimize s tabstripId

/-- Well-formedness of the registry per the §3 invariants: SnapGroups
never overlap, a window belongs to at most one TabGroup, tabstrips are
not themselves tabs, and tabbed windows are withdrawn from SnapGroup
membership. -/
@[reducible] def WFRegistry (s : RegistryState) : Prop :=
  s.snapGroups.Pairwise (fun g h => ∀ w ∈ g, w ∉ h) ∧
  s.tabGroups.Pairwise (fun t u => ∀ w ∈ t.order, w ∉ u.order) ∧
  (∀ tg ∈ s.tabGroups, ∀ tu ∈ s.tabGroups, tg.tabstrip ∉ tu.order) ∧
  (∀ tg ∈ s.tabGroups, ∀ w ∈ tg.order, ∀ g ∈ s.snapGroups, w ∉ g)

/-! ## Workspace Serializer

Modelled from the spec (§4.4): `capture()` walks the registry and emits
windows in insertion order, keying identities by logical app/window name;
`restore(workspace)` validates the document, then launches windows, then
re-establishes SnapGroup/TabGroup membership, then applies the recorded
window states.  The operation trace of a restore is made explicit so that
the required ordering (membership before state) is checkable. -/

/-- A live window known to the serializer: its logical launch key, its
current host identity and its visual state. -/
structure LiveWindow where
  logicalName : String
  id : WindowIdentity
  state : WindowState
deriving DecidableEq, Repr

/-- A live arrangement as read from the Group Registry: windows in
insertion order, the SnapGroup partition and the TabGroup list. -/
structure Arrangement where
  windows : List LiveWindow
  snapGroups : List (List WindowIdentity)
  tabGroups : List TabGroup
deriving DecidableEq, Repr

/-- A persisted window descriptor: launch data and recorded state;
identities in a Workspace are logical names, not live identities. -/
structure WindowDescriptor where
  logicalName : String
  state : WindowState
deriving DecidableEq, Repr

/-- A persisted TabGroup: tabstrip key, tab order and active tab, all as
logical names. -/
structure WorkspaceTabGroup where
  tabstrip : String
  order : List String
  activeTab : String
deriving DecidableEq, Repr

/-- A persisted Workspace document (§3). -/
structure Workspace where
  windows : List WindowDescriptor
  snapGroups : List (List String)
  tabGroups : List WorkspaceTabGroup
deriving DecidableEq, Repr

/-- Error raised for a malformed persisted document (§7). -/
inductive WorkspaceError where
  | workspaceParseError
deriving DecidableEq, Repr

/-- The logical name recorded for a live identity (first matching window
entry; empty for an unknown identity). -/
def logicalNameOf (a : Arrangement) (id : WindowIdentity) : String :=
  match a.windows.find? (fun lw => lw.id == id) with
  | some lw => lw.logicalName
  | none => ""

/-- Modelled from the spec: `capture()` — produce the persisted document
from the live arrangement, emitting windows in registry insertion order
and translating every identity to its logical name. -/
def capture (a : Arrangement) : Workspace :=
  { windows := a.windows.map (fun lw => ⟨lw.logicalName, lw.state⟩),
    snapGroups := a.snapGroups.map (fun g => g.map (logicalNameOf a)),
    tabGroups := a.tabGroups.map (fun tg =>
      ⟨logicalNameOf a tg.tabstrip, tg.order.map (logicalNameOf a),
       logicalNameOf a tg.activeTab⟩) }

/-- Structural validity of a persisted document: in every TabGroup the
active tab lies inside the tab order and no identity is duplicated within
one TabGroup. -/
def structurallyValid (w : Workspace) : Bool :=
  w.tabGroups.all (fun tg =>
    tg.order.contains tg.activeTab && decide tg.order.Nodup)

/-- One step of a workspace restore, as observable side effects: window
launches, group membership establishment, and window state application. -/
inductive RestoreOp where
  | launch (logicalName : String) (id : WindowIdentity)
  | joinSnapGroup (members : List WindowIdentity)
  | joinTabGroup (tabstrip : WindowIdentity) (order : List WindowIdentity)
      (activeTab : WindowIdentity)
  | applyState (id : WindowIdentity) (state : WindowState)
deriving DecidableEq, Repr

/-- Whether a restore step applies a recorded window state. -/
def RestoreOp.appliesState : RestoreOp → Bool
  | .applyState _ _ => true
  | _ => false

/-- Modelled from the spec: `restore(workspace)` — fail fast with
`WorkspaceParseError` on a structurally invalid document, before any
window is launched or any registry state is mutated; otherwise resolve a
fresh live identity for every logical name via `gen`, launch the windows,
re-establish SnapGroup and TabGroup membership exactly as recorded, and
only then apply the recorded window states.  Returns the resulting
arrangement together with the ordered trace of performed operations. -/
def restoreWorkspace (w : Workspace) (gen : String → WindowIdentity) :
    Except WorkspaceError Arrangement × List RestoreOp :=
  if structurallyValid w then
    (.ok
      { windows := w.windows.map (fun d =>
          ⟨d.logicalName, gen d.logicalName, d.state⟩),
        snapGroups := w.snapGroups.map (fun g => g.map gen),
        tabGroups := w.tabGroups.map (fun tg =>
          ⟨gen tg.tabstrip, tg.order.map gen, gen tg.activeTab⟩) },
     w.windows.map (fun d => .launch d.logicalName (gen d.logicalName)) ++
     w.snapGroups.map (fun g => .joinSnapGroup (g.map gen)) ++
     w.tabGroups.map (fun tg =>
       .joinTabGroup (gen tg.tabstrip) (tg.order.map gen)
         (gen tg.activeTab)) ++
     w.windows.map (fun d => .applyState (gen d.logicalName) d.state))
  else (.error .workspaceParseError, [])

/-- The live-identity renaming a capture→restore round trip induces:
each live identity is replaced by the fresh identity generated for its
logical name. -/
def renameId (a : Arrangement) (gen : String → WindowIdentity) :
    WindowIdentity → WindowIdentity :=
  fun id => gen (logicalNameOf a id)

/-- Apply an identity renaming to an arrangement, preserving window
emission order, logical names, states, grouping and tab order. -/
def renameArrangement (φ : WindowIdentity → WindowIdentity)
    (a : Arrangement) : Arrangement :=
  { windows := a.windows.map (fun lw => ⟨lw.logicalName, φ lw.id, lw.state⟩),
    snapGroups := a.snapGroups.map (fun g => g.map φ),
    tabGroups := a.tabGroups.map (fun tg =>
      ⟨φ tg.tabstrip, tg.order.map φ, φ tg.activeTab⟩) }

/-- Well-formedness of a live arrangement for serialization: logical
names and live identities are duplicate-free, every tab member is a
recorded window, tab orders are duplicate-free and each active tab is a
member of its order. -/
@[reducible] def WFArrangement (a : Arrangement) : Prop :=
  (a.windows.map LiveWindow.logicalName).Nodup ∧
  (a.windows.map LiveWindow.id).Nodup ∧
  (∀ tg ∈ a.tabGroups, ∀ i ∈ tg.order, ∃ lw ∈ a.windows, lw.id = i) ∧
  (∀ tg ∈ a.tabGroups, tg.order.Nodup) ∧
  (∀ tg ∈ a.tabGroups, tg.activeTab ∈ tg.order)

/-! ## Concrete scenarios

Fixed inputs used by counterexamples and witnesses, mirroring the
integration tests in the sources (4 windows tabbed pairwise, the two
tabstrips snapped together; and a single tabbed pair). -/

/-- Test window 1. -/
def W1 : WindowIdentity := ⟨"test-app", "win-1"⟩

/-- Test window 2. -/
def W2 : WindowIdentity := ⟨"test-app", "win-2"⟩

/-- Test window 3. -/
def W3 : WindowIdentity := ⟨"test-app", "win-3"⟩

/-- Test window 4. -/
def W4 : WindowIdentity := ⟨"test-app", "win-4"⟩

/-- Tabstrip of TabGroup T1. -/
def T1strip : WindowIdentity := ⟨"layouts-service", "tabstrip-1"⟩

/-- Tabstrip of TabGroup T2. -/
def T2strip : WindowIdentity := ⟨"layouts-service", "tabstrip-2"⟩

/-- The arrangement of the snapped-tabs integration test: `W1,W2` tabbed
into T1, `W3,W4` tabbed into T2, the two tabstrips snapped into one
SnapGroup, everything in the `normal` state. -/
def snappedTabsState : RegistryState :=
  { snapGroups := [[T1strip, T2strip]],
    tabGroups := [⟨T1strip, [W1, W2], W1⟩, ⟨T2strip, [W3, W4], W3⟩],
    windowStates :=
      [(W1, .normal), (W2, .normal), (W3, .normal), (W4, .normal),
       (T1strip, .normal), (T2strip, .normal)] }

/-- A single tabbed pair `W1,W2` under tabstrip T1, all `normal`. -/
def tabbedPairState : RegistryState :=
  { snapGroups := [[T1strip]],
    tabGroups := [⟨T1strip, [W1, W2], W1⟩],
    windowStates := [(W1, .normal), (W2, .normal), (T1strip, .normal)] }

/-- A live arrangement with one tabbed pair, used for the capture/restore
round trip. -/
def liveArrangement : Arrangement :=
  { windows :=
      [⟨"app-1", W1, .normal⟩, ⟨"app-2", W2, .minimized⟩,
       ⟨"strip-1", T1strip, .normal⟩],
    snapGroups := [[T1strip]],
    tabGroups := [⟨T1strip, [W1, W2], W1⟩] }

/-- A structurally invalid document: the active tab of the only TabGroup
is not a member of its tab order. -/
def badWorkspace : Workspace :=
  { windows := [⟨"app-1", .normal⟩],
    snapGroups := [["app-1"]],
    tabGroups := [⟨"strip-1", ["app-1"], "app-2"⟩] }

/-- A concrete fresh-identity resolver for restores. -/
def freshIdentity : String → WindowIdentity :=
  fun logicalName => ⟨"restored", logicalName⟩

end LayoutsService

namespace LayoutsService

/-- C5: at most one drag may be active system-wide: whenever the machine
is in the `dragging` state, any `startDrag` call, for any identity and
from any caller, fails with `DragInProgressError` and the machine remains
`dragging` with the original drag unchanged; `startDrag` succeeds exactly
from the `idle` state. -/
theorem startDrag_exclusive (d : DragState) (a : WindowIdentity) :
    (∀ o : WindowIdentity, d = .dragging o →
      startDrag d a = (.error .dragInProgressError, .dragging o)) ∧
    ((startDrag d a).1 = .ok () ↔ d = .idle) := by
  cases d with
  | idle => simp [startDrag]
  | dragging o => simp [startDrag]

/-- Witness for C5: concrete run of `startDrag` from a `dragging` state. -/
theorem startDrag_exclusive_witness :
    startDrag (.dragging ⟨"App0", "App0"⟩) ⟨"App1", "App1"⟩ =
      (.error .dragInProgressError, .dragging ⟨"App0", "App0"⟩) :=
  (startDrag_exclusive (.dragging ⟨"App0", "App0"⟩) ⟨"App1", "App1"⟩).1
    ⟨"App0", "App0"⟩ rfl

/-- C6: the drag machine can never be permanently blocked in `dragging`:
when the window that originated the active drag closes while the machine
is `dragging`, the machine transitions back to `idle` without `endDrag`,
and a subsequent `startDrag` from any window succeeds. -/
theorem dragging_selfheals_on_close (o c : WindowIdentity) :
    onWindowClosed (.dragging o) o = .idle ∧
    (startDrag (onWindowClosed (.dragging o) o) c).1 = .ok () := by
  constructor
  · simp [onWindowClosed]
  · simp [onWindowClosed, startDrag]

/-- C10: with the global `fin` undefined, `addEventListener` and
`removeEventListener` throw synchronously and leave the emitter
registrations untouched; with `fin` defined, they register (resp. remove)
the listener on the shared emitter and return normally. -/
theorem eventListener_fin_guard (eventType : String) (listener : Nat)
    (em : List ListenerEntry) :
    ((addEventListener false eventType listener em).1.isOk = false ∧
     (addEventListener false eventType listener em).2 = em ∧
     (removeEventListener false eventType listener em).1.isOk = false ∧
     (removeEventListener false eventType listener em).2 = em) ∧
    (addEventListener true eventType listener em =
       (.ok (), em ++ [⟨eventType, listener⟩]) ∧
     removeEventListener true eventType listener em =
       (.ok (), removeLastListener em eventType listener)) := by
  refine ⟨⟨?_, ?_, ?_, ?_⟩, ?_, ?_⟩ <;>
    simp [addEventListener, removeEventListener, Except.isOk, Except.toBool]

/-- Helper: `find?` commutes with a map that does not change the
predicate. -/
theorem find?_map_of_pred_eq {α : Type} (p : α → Bool) (f : α → α)
    (hc : ∀ a, p (f a) = p a) (L : List α) :
    (L.map f).find? p = (L.find? p).map f := by
  induction L with
  | nil => rfl
  | cons a t ih =>
      by_cases hp : p a = true
      · rw [List.map_cons, List.find?_cons_of_pos _ (by rw [hc]; exact hp),
          List.find?_cons_of_pos _ hp]
        rfl
      · rw [List.map_cons, List.find?_cons_of_neg _ (by rw [hc]; exact hp),
          List.find?_cons_of_neg _ hp, ih]

/-- Helper: the spec's `reorder` validation accepts `newOrder` exactly
when it is a permutation of the current (duplicate-free) tab order. -/
theorem isExactPermutation_iff (newOrder current : List WindowIdentity)
    (hnd : current.Nodup) :
    isExactPermutation newOrder current = true ↔ newOrder.Perm current := by
  unfold isExactPermutation
  simp only [Bool.and_eq_true, beq_iff_eq, List.all_eq_true,
    decide_eq_true_eq]
  constructor
  · rintro ⟨⟨hlen, hsub⟩, _⟩
    have hsub2 : current ⊆ newOrder := by
      intro x hx
      simpa using hsub x hx
    have hsp : List.Subperm current newOrder :=
      List.subperm_of_subset hnd hsub2
    exact (hsp.perm_of_length_le (le_of_eq hlen)).symm
  · intro hp
    refine ⟨⟨hp.length_eq, fun x hx => ?_⟩, hp.nodup_iff.mpr hnd⟩
    simpa using hp.mem_iff.mpr hx

/-- C3: for every existing TabGroup, `reorder(tabGroupId, newOrder)`
succeeds exactly when `newOrder` is a permutation of the current members
(same length, same set, no duplicates); any mismatch fails with
`InvalidOrderError` and returns the state exactly as it was; on success
the stored order becomes `newOrder`. -/
theorem reorder_permutation_check (s : RegistryState)
    (tabGroupId : WindowIdentity) (newOrder : List WindowIdentity)
    (tg : TabGroup) (hfind : findTabGroup s tabGroupId = some tg)
    (hnd : tg.order.Nodup) :
    ((reorder s tabGroupId newOrder).1 = .ok () ↔ newOrder.Perm tg.order) ∧
    (¬ newOrder.Perm tg.order →
      (reorder s tabGroupId newOrder).1 = .error .invalidOrderError ∧
      (reorder s tabGroupId newOrder).2.1 = s) ∧
    (newOrder.Perm tg.order →
      findTabGroup (reorder s tabGroupId newOrder).2.1 tabGroupId =
        some { tg with order := newOrder }) := by
  have hiff := isExactPermutation_iff newOrder tg.order hnd
  have hc : ∀ g : TabGroup,
      ((if g.tabstrip == tabGroupId then { g with order := newOrder }
        else g).tabstrip == tabGroupId) = (g.tabstrip == tabGroupId) := by
    intro g
    by_cases hg : (g.tabstrip == tabGroupId) = true <;> simp [hg]
  have hfind2 : s.tabGroups.find? (fun g => g.tabstrip == tabGroupId) =
      some tg := hfind
  by_cases hp : isExactPermutation newOrder tg.order = true
  · have hperm := hiff.mp hp
    refine ⟨by simp [reorder, hfind, hp, hperm], fun hn => absurd hperm hn,
      fun _ => ?_⟩
    have htg : (tg.tabstrip == tabGroupId) = true := by
      simpa using List.find?_some hfind2
    have hred : (reorder s tabGroupId newOrder).2.1 =
        { s with tabGroups := s.tabGroups.map (fun g =>
            if g.tabstrip == tabGroupId then { g with order := newOrder }
            else g) } := by
      simp [reorder, hfind, hp]
    have key := find?_map_of_pred_eq
      (fun g : TabGroup => g.tabstrip == tabGroupId)
      (fun g : TabGroup =>
        if g.tabstrip == tabGroupId then { g with order := newOrder }
        else g) hc s.tabGroups
    rw [hred]
    show (s.tabGroups.map (fun g =>
        if g.tabstrip == tabGroupId then { g with order := newOrder }
        else g)).find? (fun g => g.tabstrip == tabGroupId) =
      some { tg with order := newOrder }
    rw [key, hfind2]
    have htg2 : tg.tabstrip = tabGroupId := by simpa using htg
    simp [htg2]
  · have hnperm : ¬ newOrder.Perm tg.order := fun h => hp (hiff.mpr h)
    refine ⟨by simp [reorder, hfind, hp, hnperm], fun _ => ?_, fun h =>
      absurd h hnperm⟩
    constructor <;> simp [reorder, hfind, hp]

/-- Witness for C3: reordering the tabbed pair by the swapped permutation
succeeds and the stored order afterwards is the new order. -/
theorem reorder_permutation_check_witness :
    (reorder tabbedPairState T1strip [W2, W1]).1 = .ok () ∧
    findTabGroup (reorder tabbedPairState T1strip [W2, W1]).2.1 T1strip =
      some ⟨T1strip, [W2, W1], W1⟩ := by
  have h := reorder_permutation_check tabbedPairState T1strip [W2, W1]
    ⟨T1strip, [W1, W2], W1⟩ (by decide) (by decide)
  exact ⟨h.1.mpr (by decide), h.2.2 (by decide)⟩

/-- C4: a valid `reorderTabs(newOrder)` call changes only the stored tab
order of the addressed tab group: it emits no service event, and window
states, SnapGroup membership, the tabstrip of every TabGroup, every
active tab and every TabGroup's member set are all unchanged. -/
theorem reorderTabs_frame (s : RegistryState) (tabGroupId : WindowIdentity)
    (newOrder : List WindowIdentity) (tg : TabGroup)
    (hfind : findTabGroup s tabGroupId = some tg) (hnd : tg.order.Nodup)
    (hstrips : (s.tabGroups.map TabGroup.tabstrip).Nodup)
    (hok : (reorder s tabGroupId newOrder).1 = .ok ()) :
    (reorder s tabGroupId newOrder).2.2 = [] ∧
    (reorder s tabGroupId newOrder).2.1.snapGroups = s.snapGroups ∧
    (reorder s tabGroupId newOrder).2.1.windowStates = s.windowStates ∧
    (reorder s tabGroupId newOrder).2.1.tabGroups.map TabGroup.tabstrip =
      s.tabGroups.map TabGroup.tabstrip ∧
    (reorder s tabGroupId newOrder).2.1.tabGroups.map TabGroup.activeTab =
      s.tabGroups.map TabGroup.activeTab ∧
    (reorder s tabGroupId newOrder).2.1.tabGroups.length =
      s.tabGroups.length ∧
    ∀ i (hi : i < s.tabGroups.length)
      (hi2 : i < (reorder s tabGroupId newOrder).2.1.tabGroups.length),
      ∀ x,
        x ∈ ((reorder s tabGroupId newOrder).2.1.tabGroups.get
          ⟨i, hi2⟩).order ↔
        x ∈ (s.tabGroups.get ⟨i, hi⟩).order := by
  have hp : isExactPermutation newOrder tg.order = true := by
    by_contra hp
    simp [reorder, hfind, hp] at hok
  have hfind2 : s.tabGroups.find? (fun g => g.tabstrip == tabGroupId) =
      some tg := hfind
  have hperm : newOrder.Perm tg.order :=
    (isExactPermutation_iff newOrder tg.order hnd).mp hp
  have htg : (tg.tabstrip == tabGroupId) = true := by
    simpa using List.find?_some hfind2
  have htgmem : tg ∈ s.tabGroups := List.mem_of_find?_eq_some hfind2
  have hred : (reorder s tabGroupId newOrder).2.1 =
      { s with tabGroups := s.tabGroups.map (fun g =>
          if g.tabstrip == tabGroupId then { g with order := newOrder }
          else g) } := by
    simp [reorder, hfind, hp]
  refine ⟨by simp [reorder, hfind, hp], by rw [hred], by rw [hred],
    ?_, ?_, ?_, ?_⟩
  · rw [hred]
    show (s.tabGroups.map (fun g =>
        if g.tabstrip == tabGroupId then { g with order := newOrder }
        else g)).map TabGroup.tabstrip = s.tabGroups.map TabGroup.tabstrip
    rw [List.map_map]
    apply List.map_congr_left
    intro g _
    by_cases hg : (g.tabstrip == tabGroupId) = true <;>
      simp [Function.comp, hg]
  · rw [hred]
    show (s.tabGroups.map (fun g =>
        if g.tabstrip == tabGroupId then { g with order := newOrder }
        else g)).map TabGroup.activeTab = s.tabGroups.map TabGroup.activeTab
    rw [List.map_map]
    apply List.map_congr_left
    intro g _
    by_cases hg : (g.tabstrip == tabGroupId) = true <;>
      simp [Function.comp, hg]
  · rw [hred]
    show (s.tabGroups.map (fun g =>
        if g.tabstrip == tabGroupId then { g with order := newOrder }
        else g)).length = s.tabGroups.length
    rw [List.length_map]
  · intro i hi hi2 x
    have main : ∀ g ∈ s.tabGroups, ∀ y : WindowIdentity,
        y ∈ ((fun g : TabGroup =>
          if g.tabstrip == tabGroupId then { g with order := newOrder }
          else g) g).order ↔ y ∈ g.order := by
      intro g hgmem y
      by_cases hg : (g.tabstrip == tabGroupId) = true
      · have hgi : g = tg := by
          refine List.inj_on_of_nodup_map hstrips hgmem htgmem ?_
          rw [beq_iff_eq] at hg htg
          rw [hg, htg]
        simp only [hg, if_true]
        rw [hgi]
        exact hperm.mem_iff
      · simp [hg]
    have hTg : (reorder s tabGroupId newOrder).2.1.tabGroups =
        s.tabGroups.map (fun g =>
          if g.tabstrip == tabGroupId then { g with order := newOrder }
          else g) := by rw [hred]
    have hget := List.get_of_eq hTg ⟨i, hi2⟩
    rw [hget, List.get_map]
    exact main _ (List.get_mem _ _ _) x

/-- Witness for C4: the valid reorder of the tabbed pair emits no event
and leaves window states and SnapGroups untouched. -/
theorem reorderTabs_frame_witness :
    (reorder tabbedPairState T1strip [W2, W1]).2.2 = [] ∧
    (reorder tabbedPairState T1strip [W2, W1]).2.1.windowStates =
      tabbedPairState.windowStates ∧
    (reorder tabbedPairState T1strip [W2, W1]).2.1.snapGroups =
      tabbedPairState.snapGroups := by
  have h := reorderTabs_frame tabbedPairState T1strip [W2, W1]
    ⟨T1strip, [W1, W2], W1⟩ (by decide) (by decide) (by decide) rfl
  exact ⟨h.1, h.2.2.1, h.2.1⟩


/-- Helper: map a function over a list on which it acts as the identity. -/
theorem map_id_of_forall {α : Type} (f : α → α) (l : List α)
    (h : ∀ x ∈ l, f x = x) : l.map f = l := by
  induction l with
  | nil => rfl
  | cons a t ih =>
      rw [List.map_cons, h a (List.mem_cons_self a t),
        ih (fun x hx => h x (List.mem_cons_of_mem a hx))]

/-- Helper: in a pairwise-disjoint family of SnapGroups, `find?` locates
exactly the group a member belongs to. -/
theorem find?_group_unique {L : List (List WindowIdentity)}
    (hd : L.Pairwise (fun g h => ∀ w ∈ g, w ∉ h)) {g : List WindowIdentity}
    (hg : g ∈ L) {w : WindowIdentity} (hw : w ∈ g) :
    L.find? (fun h => h.contains w) = some g := by
  induction L with
  | nil => cases hg
  | cons x t ih =>
      rw [List.pairwise_cons] at hd
      rcases List.mem_cons.mp hg with rfl | hgt
      · rw [List.find?_cons_of_pos _ (by simpa using hw)]
      · have hx : ¬ (x.contains w = true) := by
          intro hcx
          exact hd.1 g hgt w (by simpa using hcx) hw
        exact (@List.find?_cons_of_neg _ (fun h => h.contains w) x t
          hx).trans (ih hd.2 hgt)

/-- Helper: with pairwise-disjoint tab orders, `find?` locates exactly
the TabGroup a tab belongs to. -/
theorem find?_tab_unique {L : List TabGroup}
    (hd : L.Pairwise (fun t u => ∀ w ∈ t.order, w ∉ u.order))
    {tg : TabGroup} (htg : tg ∈ L) {w : WindowIdentity}
    (hw : w ∈ tg.order) :
    L.find? (fun u => u.order.contains w) = some tg := by
  induction L with
  | nil => cases htg
  | cons x t ih =>
      rw [List.pairwise_cons] at hd
      rcases List.mem_cons.mp htg with rfl | hgt
      · rw [List.find?_cons_of_pos _ (by simpa using hw)]
      · have hx : ¬ (x.order.contains w = true) := by
          intro hcx
          exact hd.1 tg hgt w (by simpa using hcx) hw
        exact (@List.find?_cons_of_neg _ (fun u => u.order.contains w) x t
          hx).trans (ih hd.2 hgt)

/-- Helper: after `setStates`, the recorded entry of any targeted,
registered window holds the new state. -/
theorem find?_assoc_setStates (l : List (WindowIdentity × WindowState))
    (ws : List WindowIdentity) (st : WindowState) (w : WindowIdentity)
    (hw : w ∈ ws) (hreg : ∃ p ∈ l, p.1 = w) :
    (l.map (fun p => if ws.contains p.1 then (p.1, st) else p)).find?
      (fun p => p.1 == w) = some (w, st) := by
  induction l with
  | nil =>
      rcases hreg with ⟨p, hp, _⟩
      cases hp
  | cons a t ih =>
      simp only [List.map_cons]
      by_cases ha : a.1 = w
      · have hcontains : ws.contains a.1 = true := by
          rw [ha]; simpa using hw
        rw [if_pos hcontains]
        have hp : ((a.1, st).1 == w) = true := by simpa using ha
        refine (@List.find?_cons_of_pos _
          (fun p : WindowIdentity × WindowState => p.1 == w) (a.1, st)
          (t.map (fun p => if ws.contains p.1 then (p.1, st) else p))
          hp).trans ?_
        rw [ha]
      · have hp : ¬ ((if ws.contains a.1 = true then (a.1, st)
            else a).1 == w) = true := by
          by_cases hc : ws.contains a.1 = true
          · rw [if_pos hc]
            simpa using ha
          · rw [if_neg hc]
            simpa using ha
        have hreg2 : ∃ p ∈ t, p.1 = w := by
          rcases hreg with ⟨p, hp2, hpe⟩
          rcases List.mem_cons.mp hp2 with rfl | hpt
          · exact absurd hpe ha
          · exact ⟨p, hpt, hpe⟩
        exact (@List.find?_cons_of_neg _
          (fun p : WindowIdentity × WindowState => p.1 == w)
          (if ws.contains a.1 = true then (a.1, st) else a)
          (t.map (fun p => if ws.contains p.1 then (p.1, st) else p))
          hp).trans (ih hreg2)

/-- Helper: `stateOf` after `setStates` reports the new state for every
targeted window that has a recorded entry. -/
theorem stateOf_setStates_of_mem (s : RegistryState)
    (ws : List WindowIdentity) (st : WindowState) (w : WindowIdentity)
    (hw : w ∈ ws) (hreg : ∃ p ∈ s.windowStates, p.1 = w) :
    stateOf (setStates s ws st) w = st := by
  simp only [stateOf, setStates]
  rw [find?_assoc_setStates s.windowStates ws st w hw hreg]

/-- Helper: `setStates` leaves group structure, and hence every
synchronization scope, unchanged. -/
theorem syncScope_setStates (s : RegistryState) (ws : List WindowIdentity)
    (st : WindowState) (v : WindowIdentity) :
    syncScope (setStates s ws st) v = syncScope s v := rfl

/-- Helper: a window that belongs to no TabGroup is its own effective
entity. -/
theorem effectiveEntity_eq_self_of_none {s : RegistryState}
    {e : WindowIdentity} (h : tabGroupOfTab s e = none) :
    effectiveEntity s e = e := by
  unfold effectiveEntity
  rw [h]

/-- Helper: the effective entity of any window is never itself a tab
(tabstrips are not tabs). -/
theorem effectiveEntity_not_tab (s : RegistryState)
    (hstrips : ∀ tg ∈ s.tabGroups, ∀ tu ∈ s.tabGroups,
      tg.tabstrip ∉ tu.order) (w : WindowIdentity) :
    tabGroupOfTab s (effectiveEntity s w) = none := by
  unfold effectiveEntity
  cases h : tabGroupOfTab s w with
  | none => exact h
  | some tg =>
      have htg : tg ∈ s.tabGroups := List.mem_of_find?_eq_some h
      unfold tabGroupOfTab
      rw [List.find?_eq_none]
      intro tu htu hc
      exact hstrips tg htg tu htu (by simpa using hc)

/-- Helper: the synchronization scope is the same seen from any of its
members — state broadcasts reach the same set no matter which member
initiates the transition. -/
theorem syncScope_eq_of_mem (s : RegistryState) (hwf : WFRegistry s)
    {w v : WindowIdentity} (hv : v ∈ syncScope s w) :
    syncScope s v = syncScope s w := by
  obtain ⟨hsnap, horders, hstrips, htabs⟩ := hwf
  have hetab : tabGroupOfTab s (effectiveEntity s w) = none :=
    effectiveEntity_not_tab s hstrips w
  suffices hgoal : snapGroupOf s (effectiveEntity s v) =
      snapGroupOf s (effectiveEntity s w) by
    unfold syncScope
    rw [hgoal]
  unfold syncScope stripScope at hv
  rcases List.mem_append.mp hv with hv1 | hv2
  · cases hfind : s.snapGroups.find?
        (fun g => g.contains (effectiveEntity s w)) with
    | some sg0 =>
        have hsg : snapGroupOf s (effectiveEntity s w) = sg0 := by
          unfold snapGroupOf
          rw [hfind]
          rfl
        rw [hsg] at hv1
        have hsg0mem : sg0 ∈ s.snapGroups := List.mem_of_find?_eq_some hfind
        have hvtab : tabGroupOfTab s v = none := by
          unfold tabGroupOfTab
          rw [List.find?_eq_none]
          intro tu htu hc
          exact htabs tu htu v (by simpa using hc) sg0 hsg0mem hv1
        have hev : effectiveEntity s v = v :=
          effectiveEntity_eq_self_of_none hvtab
        rw [hev, hsg]
        unfold snapGroupOf
        rw [find?_group_unique hsnap hsg0mem hv1]
        rfl
    | none =>
        have hsg : snapGroupOf s (effectiveEntity s w) =
            [effectiveEntity s w] := by
          unfold snapGroupOf
          rw [hfind]
          rfl
        rw [hsg] at hv1
        have hve : v = effectiveEntity s w := by simpa using hv1
        rw [hve, effectiveEntity_eq_self_of_none hetab]
  · rw [List.mem_flatMap] at hv2
    obtain ⟨tg, htgf, hvtg⟩ := hv2
    rw [List.mem_filter] at htgf
    obtain ⟨htgmem, htgsg⟩ := htgf
    have hstripsg : tg.tabstrip ∈ snapGroupOf s (effectiveEntity s w) := by
      simpa using htgsg
    have hvt : tabGroupOfTab s v = some tg :=
      find?_tab_unique horders htgmem hvtg
    have hev : effectiveEntity s v = tg.tabstrip := by
      unfold effectiveEntity
      rw [hvt]
    rw [hev]
    clear hev hvt
    cases hfind : s.snapGroups.find?
        (fun g => g.contains (effectiveEntity s w)) with
    | some sg0 =>
        have hsg : snapGroupOf s (effectiveEntity s w) = sg0 := by
          unfold snapGroupOf
          rw [hfind]
          rfl
        rw [hsg] at hstripsg
        rw [hsg]
        unfold snapGroupOf
        rw [find?_group_unique hsnap (List.mem_of_find?_eq_some hfind)
          hstripsg]
        rfl
    | none =>
        have hsg : snapGroupOf s (effectiveEntity s w) =
            [effectiveEntity s w] := by
          unfold snapGroupOf
          rw [hfind]
          rfl
        rw [hsg] at hstripsg
        have hte : tg.tabstrip = effectiveEntity s w := by
          simpa using hstripsg
        rw [hte]


/-- C1 counterexample: in the snapped-tabs arrangement (W1,W2 in T1,
W3,W4 in T2, the two tabstrips in one SnapGroup), `minimizeTabGroup` on
T1's tabstrip does NOT leave W3 in the `normal` state — the minimize
cascade crosses the SnapGroup and reaches the partner TabGroup's tabs,
exactly as the snapped-tabs integration test asserts. -/
theorem minimizeTabGroup_boundary_counterexample :
    stateOf (minimizeTabGroup snappedTabsState T1strip) W3 ≠
      WindowState.normal := by decide

/-- C1 (amended): minimizing T1's tabstrip while the two tabstrips share
a SnapGroup minimizes W1, W2 and T1's tabstrip AND ALSO W3, W4 and T2's
tabstrip — the broadcast covers the whole SnapGroup and the tabs of every
tabstrip in it, matching the test's assertion that all windows and
tabstrips end minimized or hidden. -/
theorem minimizeTabGroup_snapped_cascade :
    stateOf (minimizeTabGroup snappedTabsState T1strip) W1 =
      WindowState.minimized ∧
    stateOf (minimizeTabGroup snappedTabsState T1strip) W2 =
      WindowState.minimized ∧
    stateOf (minimizeTabGroup snappedTabsState T1strip) W3 =
      WindowState.minimized ∧
    stateOf (minimizeTabGroup snappedTabsState T1strip) W4 =
      WindowState.minimized ∧
    stateOf (minimizeTabGroup snappedTabsState T1strip) T1strip =
      WindowState.minimized ∧
    stateOf (minimizeTabGroup snappedTabsState T1strip) T2strip =
      WindowState.minimized := by decide

/-- C2: for every well-formed group arrangement, minimizing any one
member `w` leaves every member `u` of `w`'s synchronization scope (the
grouped windows and the tabstrip, if tabbed) in the `minimized` state
once the broadcast completes; and a subsequent restore initiated by any
single member `v` of the same scope returns every member to `normal`. -/
theorem group_minimize_restore_sync (s : RegistryState)
    (hwf : WFRegistry s) (w v u : WindowIdentity)
    (hv : v ∈ syncScope s w) (hu : u ∈ syncScope s w)
    (hreg : ∃ p ∈ s.windowStates, p.1 = u) :
    stateOf (minimize s w) u = WindowState.minimized ∧
    stateOf (restore (minimize s w) v) u = WindowState.normal := by
  constructor
  · exact stateOf_setStates_of_mem s (syncScope s w) .minimized u hu hreg
  · have hscope : syncScope (minimize s w) v = syncScope s w := by
      have h1 : syncScope (minimize s w) v = syncScope s v :=
        syncScope_setStates s (syncScope s w) .minimized v
      rw [h1, syncScope_eq_of_mem s hwf hv]
    have hreg2 : ∃ p ∈ (minimize s w).windowStates, p.1 = u := by
      obtain ⟨p, hp, hpe⟩ := hreg
      refine ⟨(fun q : WindowIdentity × WindowState =>
        if (syncScope s w).contains q.1 then (q.1, .minimized) else q) p,
        List.mem_map_of_mem _ hp, ?_⟩
      show (if (syncScope s w).contains p.1 = true
        then (p.1, WindowState.minimized) else p).1 = u
      by_cases hc : (syncScope s w).contains p.1 = true
      · rw [if_pos hc]
        exact hpe
      · rw [if_neg hc]
        exact hpe
    unfold restore
    rw [hscope]
    exact stateOf_setStates_of_mem (minimize s w) (syncScope s w) .normal
      u hu hreg2

/-- Witness for C2: minimizing tab W1 of the tabbed pair minimizes W2;
restoring via the tabstrip returns W2 to normal. -/
theorem group_minimize_restore_sync_witness :
    stateOf (minimize tabbedPairState W1) W2 = WindowState.minimized ∧
    stateOf (restore (minimize tabbedPairState W1) T1strip) W2 =
      WindowState.normal :=
  group_minimize_restore_sync tabbedPairState (by decide) W1 T1strip W2
    (by decide) (by decide) (by decide)

/-- C8: on a well-formed arrangement whose whole synchronization scope is
already `normal`, `restore(w)` is a no-op (the state is left exactly
unchanged, so any number of repeated calls leaves it unchanged too); and
independently of that, a single restore initiated by any member `v` of
the scope sets `normal` for every registered member of the scope. -/
theorem restore_idempotent_on_normal (s : RegistryState)
    (hwf : WFRegistry s) (w v : WindowIdentity) (hv : v ∈ syncScope s w) :
    ((∀ p ∈ s.windowStates, p.1 ∈ syncScope s w →
        p.2 = WindowState.normal) →
      restore s w = s ∧ restore (restore s w) w = s) ∧
    (∀ u ∈ syncScope s w, (∃ p ∈ s.windowStates, p.1 = u) →
      stateOf (restore s v) u = WindowState.normal) := by
  constructor
  · intro hnormal
    have hmap : s.windowStates.map (fun p =>
        if (syncScope s w).contains p.1 then (p.1, WindowState.normal)
        else p) = s.windowStates := by
      apply map_id_of_forall
      intro p hp
      show (if (syncScope s w).contains p.1 = true
        then (p.1, WindowState.normal) else p) = p
      by_cases hc : (syncScope s w).contains p.1 = true
      · rw [if_pos hc]
        have hn : p.2 = WindowState.normal :=
          hnormal p hp (by simpa using hc)
        rw [← hn]
      · rw [if_neg hc]
    have h1 : restore s w = s := by
      unfold restore setStates
      rw [hmap]
    exact ⟨h1, by rw [h1, h1]⟩
  · intro u hu hreg
    have hscope : syncScope s v = syncScope s w :=
      syncScope_eq_of_mem s hwf hv
    unfold restore
    rw [hscope]
    exact stateOf_setStates_of_mem s (syncScope s w) .normal u hu hreg

/-- Witness for C8: on the all-normal tabbed pair, restore of W1 is a
no-op, and restore via the tabstrip reports W2 normal. -/
theorem restore_idempotent_on_normal_witness :
    restore tabbedPairState W1 = tabbedPairState ∧
    stateOf (restore tabbedPairState T1strip) W2 = WindowState.normal := by
  have h := restore_idempotent_on_normal tabbedPairState (by decide) W1
    T1strip (by decide)
  exact ⟨(h.1 (by decide)).1, h.2 W2 (by decide) (by decide)⟩


/-- C9: `restore(workspace)` raises `WorkspaceParseError` exactly on
structurally invalid documents (active tab outside the tab order, or a
duplicate identity within one TabGroup), and on a failing restore no
operation at all is performed — no window is launched and no membership
or state mutation happens; structurally valid documents never raise a
parse error. -/
theorem restore_validates_before_sideeffects (w : Workspace)
    (gen : String → WindowIdentity) :
    ((restoreWorkspace w gen).1 = .error .workspaceParseError ↔
      structurallyValid w = false) ∧
    (structurallyValid w = false → (restoreWorkspace w gen).2 = []) ∧
    (structurallyValid w = true →
      ∃ a, (restoreWorkspace w gen).1 = .ok a) := by
  by_cases hv : structurallyValid w = true
  · refine ⟨?_, ?_, fun _ => ?_⟩ <;> simp [restoreWorkspace, hv]
  · have hv2 : structurallyValid w = false := by simpa using hv
    refine ⟨?_, fun _ => ?_, fun h => absurd h hv⟩ <;>
      simp [restoreWorkspace, hv2]

/-- Witness for C9: the document with an active tab outside its tab
order fails with `WorkspaceParseError` and performs no operation. -/
theorem restore_validates_before_sideeffects_witness :
    (restoreWorkspace badWorkspace freshIdentity).1 =
      .error .workspaceParseError ∧
    (restoreWorkspace badWorkspace freshIdentity).2 = [] := by
  have h := restore_validates_before_sideeffects badWorkspace freshIdentity
  exact ⟨h.1.mpr (by decide), h.2.1 (by decide)⟩

/-- Helper: with duplicate-free live identities, `find?` by identity
locates exactly the window entry itself. -/
theorem find?_id_unique (l : List LiveWindow)
    (hids : (l.map LiveWindow.id).Nodup) {lw : LiveWindow} (hlw : lw ∈ l) :
    l.find? (fun x => x.id == lw.id) = some lw := by
  induction l with
  | nil => cases hlw
  | cons x t ih =>
      rcases List.mem_cons.mp hlw with rfl | hlt
      · rw [List.find?_cons_of_pos _ (by simp)]
      · rw [List.map_cons, List.nodup_cons] at hids
        have hx : ¬ (x.id == lw.id) = true := by
          intro hc
          apply hids.1
          rw [show x.id = lw.id from by simpa using hc]
          exact List.mem_map_of_mem LiveWindow.id hlt
        exact (@List.find?_cons_of_neg _ (fun y => y.id == lw.id) x t
          hx).trans (ih hids.2 hlt)

/-- Helper: the recorded logical name of a live window entry is its own
logical name. -/
theorem logicalNameOf_eq (a : Arrangement)
    (hids : (a.windows.map LiveWindow.id).Nodup) {lw : LiveWindow}
    (hlw : lw ∈ a.windows) : logicalNameOf a lw.id = lw.logicalName := by
  unfold logicalNameOf
  rw [find?_id_unique a.windows hids hlw]

/-- Helper: on identities that are recorded windows, the logical-name
translation is injective when names and identities are duplicate-free. -/
theorem logicalNameOf_inj (a : Arrangement)
    (hnames : (a.windows.map LiveWindow.logicalName).Nodup)
    (hids : (a.windows.map LiveWindow.id).Nodup) {i j : WindowIdentity}
    (hi : ∃ lw ∈ a.windows, lw.id = i) (hj : ∃ lw ∈ a.windows, lw.id = j)
    (heq : logicalNameOf a i = logicalNameOf a j) : i = j := by
  obtain ⟨li, hli, hlii⟩ := hi
  obtain ⟨lj, hlj, hljj⟩ := hj
  subst hlii
  subst hljj
  rw [logicalNameOf_eq a hids hli, logicalNameOf_eq a hids hlj] at heq
  rw [List.inj_on_of_nodup_map hnames hli hlj heq]

/-- Helper: capturing a well-formed live arrangement always yields a
structurally valid document. -/
theorem capture_structurallyValid (a : Arrangement)
    (hwf : WFArrangement a) :
    structurallyValid (capture a) = true := by
  obtain ⟨hnames, hids, hcov, hnd, hact⟩ := hwf
  unfold structurallyValid capture
  rw [List.all_eq_true]
  intro tg' htg'
  simp only [List.mem_map] at htg'
  obtain ⟨tg, htg, rfl⟩ := htg'
  show ((tg.order.map (logicalNameOf a)).contains
      (logicalNameOf a tg.activeTab) &&
    decide (tg.order.map (logicalNameOf a)).Nodup) = true
  rw [Bool.and_eq_true]
  constructor
  · have hmem : logicalNameOf a tg.activeTab ∈
        tg.order.map (logicalNameOf a) :=
      List.mem_map_of_mem _ (hact tg htg)
    simpa using hmem
  · rw [decide_eq_true_eq]
    refine List.Nodup.map_on ?_ (hnd tg htg)
    intro x hx y hy hxy
    exact logicalNameOf_inj a hnames hids (hcov tg htg x hx)
      (hcov tg htg y hy) hxy

/-- C7: a capture→restore round trip of a well-formed live arrangement
reproduces an equivalent arrangement — the same SnapGroup partition, the
same TabGroup list with the same relative tab order and active tab, and
the same window emission order (names and states preserved), with every
concrete identity uniformly renamed by the fresh-identity resolver; and
within the restore, all launch and group-membership operations precede
every window-state application. -/
theorem capture_restore_roundtrip (a : Arrangement)
    (gen : String → WindowIdentity) (hwf : WFArrangement a) :
    (restoreWorkspace (capture a) gen).1 =
      .ok (renameArrangement (renameId a gen) a) ∧
    (∃ setup states,
      (restoreWorkspace (capture a) gen).2 = setup ++ states ∧
      (∀ op ∈ setup, op.appliesState = false) ∧
      (∀ op ∈ states, op.appliesState = true)) := by
  have hval : structurallyValid (capture a) = true :=
    capture_structurallyValid a hwf
  obtain ⟨hnames, hids, hcov, hnd, hact⟩ := hwf
  constructor
  · have hred : (restoreWorkspace (capture a) gen).1 = Except.ok
        ⟨(capture a).windows.map (fun d =>
            ⟨d.logicalName, gen d.logicalName, d.state⟩),
          (capture a).snapGroups.map (fun g => g.map gen),
          (capture a).tabGroups.map (fun tg =>
            ⟨gen tg.tabstrip, tg.order.map gen, gen tg.activeTab⟩)⟩ := by
      simp [restoreWorkspace, hval]
    rw [hred]
    congr 1
    simp only [capture, renameArrangement]
    rw [Arrangement.mk.injEq]
    refine ⟨?_, ?_, ?_⟩
    · rw [List.map_map]
      apply List.map_congr_left
      intro lw hlw
      show (⟨lw.logicalName, gen lw.logicalName, lw.state⟩ : LiveWindow) =
        ⟨lw.logicalName, renameId a gen lw.id, lw.state⟩
      unfold renameId
      rw [logicalNameOf_eq a hids hlw]
    · rw [List.map_map]
      apply List.map_congr_left
      intro g _
      show (g.map (logicalNameOf a)).map gen = g.map (renameId a gen)
      rw [List.map_map]
      rfl
    · rw [List.map_map]
      apply List.map_congr_left
      intro tg _
      show (⟨gen (logicalNameOf a tg.tabstrip),
          (tg.order.map (logicalNameOf a)).map gen,
          gen (logicalNameOf a tg.activeTab)⟩ : TabGroup) =
        ⟨renameId a gen tg.tabstrip, tg.order.map (renameId a gen),
          renameId a gen tg.activeTab⟩
      rw [List.map_map]
      rfl
  · refine ⟨(capture a).windows.map (fun d =>
        .launch d.logicalName (gen d.logicalName)) ++
      (capture a).snapGroups.map (fun g => .joinSnapGroup (g.map gen)) ++
      (capture a).tabGroups.map (fun tg =>
        .joinTabGroup (gen tg.tabstrip) (tg.order.map gen)
          (gen tg.activeTab)),
      (capture a).windows.map (fun d =>
        .applyState (gen d.logicalName) d.state), ?_, ?_, ?_⟩
    · simp [restoreWorkspace, hval, List.append_assoc]
    · intro op hop
      simp only [List.mem_append, List.mem_map] at hop
      rcases hop with (⟨d, _, rfl⟩ | ⟨g, _, rfl⟩) | ⟨tg, _, rfl⟩ <;> rfl
    · intro op hop
      simp only [List.mem_map] at hop
      obtain ⟨d, _, rfl⟩ := hop
      rfl

/-- Witness for C7: the round trip on the concrete tabbed-pair
arrangement. -/
theorem capture_restore_roundtrip_witness :
    (restoreWorkspace (capture liveArrangement) freshIdentity).1 =
      .ok (renameArrangement (renameId liveArrangement freshIdentity)
        liveArrangement) ∧
    (∃ setup states,
      (restoreWorkspace (capture liveArrangement) freshIdentity).2 =
        setup ++ states ∧
      (∀ op ∈ setup, op.appliesState = false) ∧
      (∀ op ∈ states, op.appliesState = true)) :=
  capture_restore_roundtrip liveArrangement freshIdentity (by decide)

end LayoutsService
